import Mathlib

/-!
# Verification of the combo-deal-checker parsing and reconciliation pipeline

This file gives a shallow embedding, in Lean 4, of the pure text-processing
core of the combo-deal-checker repository: component category classification,
RAM spec extraction, price parsing, combo-type inference, deal filtering and
ranking, URL normalization and seen-set reconciliation, and the notification
state machine.  Each definition is translated from the corresponding Python
function; regular expressions are embedded through a small explicit
backtracking matcher over character classes, which covers every pattern used
by the repository (all of them are sequences of character-class repetitions).

Python floats only ever hold decimal literals parsed from text here, so prices
are modelled as rationals; Python dicts with optional keys are modelled as
structures with Option fields; I/O (the seen-deals file, webhook delivery) is
modelled by explicit state passing and a dispatch oracle.
-/

/-! ## Character and string utilities -/

/-- ASCII lower-casing of one character, as Python str.lower on ASCII text. -/
def lowerChar (c : Char) : Char :=
  if 'A' ≤ c ∧ c ≤ 'Z' then Char.ofNat (c.toNat + 32) else c

/-- Lower-case a string into a character list (Python name.lower()). -/
def lowerStr (s : String) : List Char := s.data.map lowerChar

/-- Python regex class \d restricted to ASCII digits. -/
def isDigitB (c : Char) : Bool := c.isDigit

/-- Class [a-z]. -/
def isLowerAlphaB (c : Char) : Bool := 'a' ≤ c && c ≤ 'z'

/-- Class [a-z0-9]. -/
def isLowerAlnumB (c : Char) : Bool := isLowerAlphaB c || isDigitB c

/-- Python regex class \s (ASCII whitespace). -/
def isSpaceB (c : Char) : Bool :=
  c == ' ' || c == '\t' || c == '\n' || c == '\x0d' || c == '\x0b' || c == '\x0c'

/-- Class [A-Z0-9] used by the Amazon ASIN pattern. -/
def isAsinCharB (c : Char) : Bool := ('A' ≤ c && c ≤ 'Z') || isDigitB c

/-- Does the first list occur at the head of the second? -/
def leadsWith : List Char → List Char → Bool
  | [], _ => true
  | _ :: _, [] => false
  | a :: as, b :: bs => a == b && leadsWith as bs

/-- Does the first list occur contiguously anywhere in the second?
This is the Python substring test (needle in haystack). -/
def containsSeq (needle : List Char) : List Char → Bool
  | [] => leadsWith needle []
  | b :: bs => leadsWith needle (b :: bs) || containsSeq needle bs

/-- Python keyword search: any(kw in hay for kw in kws). -/
def containsAny (kws : List String) (hay : List Char) : Bool :=
  kws.any fun k => containsSeq k.data hay

/-- Decimal digits to a natural number (Python int of a digit string). -/
def natOfDigits (l : List Char) : Nat :=
  l.foldl (fun n c => n * 10 + (c.toNat - '0'.toNat)) 0

/-! ## A small regex engine

Every regular expression used by the repository is a sequence of
character-class repetitions (literals, optional pieces, bounded and unbounded
repetitions, greedy or lazy).  A piece consumes between lo and hi characters
of its class; a match of a piece list against a string assigns each piece a
consumed slice, backtracking over the per-piece counts in greedy or lazy
order, exactly as the leftmost-match backtracking of the Python re module
behaves on such patterns. -/

structure RPiece where
  cls : Char → Bool
  lo : Nat
  hi : Option Nat
  greedy : Bool := true

/-- A literal character piece. -/
def lit (c : Char) : RPiece := ⟨fun d => d == c, 1, some 1, true⟩

/-- A greedy class repetition piece. -/
def rep (f : Char → Bool) (lo : Nat) (hi : Option Nat) : RPiece := ⟨f, lo, hi, true⟩

/-- A lazy (non-greedy) class repetition piece. -/
def repLazy (f : Char → Bool) (lo : Nat) (hi : Option Nat) : RPiece := ⟨f, lo, hi, false⟩

/-- Length of the longest prefix of s whose characters all satisfy p. -/
def maxRun (p : Char → Bool) : List Char → Nat
  | [] => 0
  | c :: cs => if p c then maxRun p cs + 1 else 0

/-- Match a piece list against a prefix of s, returning the slice consumed by
each piece.  Counts are tried largest-first for greedy pieces and
smallest-first for lazy pieces, with full backtracking across pieces. -/
def matchPieces : List RPiece → List Char → Option (List (List Char))
  | [], _ => some []
  | p :: ps, s =>
    let m := maxRun p.cls s
    let upper := match p.hi with
      | some h => min h m
      | none => m
    let ks := (List.range (upper + 1)).filter fun k => decide (p.lo ≤ k)
    let ks := if p.greedy then ks.reverse else ks
    ks.findSome? fun k =>
      match matchPieces ps (s.drop k) with
      | some rest => some (s.take k :: rest)
      | none => none

/-- Leftmost unanchored search (Python re.search): try a match at every
start position, earliest first. -/
def searchPieces (ps : List RPiece) : List Char → Option (List (List Char))
  | [] => matchPieces ps []
  | c :: t =>
    match matchPieces ps (c :: t) with
    | some g => some g
    | none => searchPieces ps t

/-- Slice consumed by piece i of a successful match. -/
def sliceAt (gs : List (List Char)) (i : Nat) : List Char := (gs.get? i).getD []

/-! ## Python float parsing

After the scrapers strip a price string, the text handed to Python float()
consists only of digits and dots.  float succeeds on such text iff it
contains at least one digit and at most one dot; the value is the usual
decimal reading.  Invalid text raises ValueError, modelled as none. -/

def pyFloat (s : List Char) : Option ℚ :=
  if (s.filter isDigitB) ≠ [] ∧ s.count '.' ≤ 1 ∧ s.all (fun c => isDigitB c || c == '.') then
    let intPart := s.takeWhile (fun c => c ≠ '.')
    let rest := s.dropWhile (fun c => c ≠ '.')
    let frac := rest.drop 1
    some ((natOfDigits intPart : ℚ) + (natOfDigits frac : ℚ) / ((10 : ℚ) ^ frac.length))
  else
    none

/-! ## Data model (models.py)

Prices are rationals (Python floats holding decimal literals), the specs dict
is a structure of optional fields, and the timestamp field is omitted
(wall-clock, irrelevant to every claim). -/

/-- The specs dict attached to a ram component (models.py Component.specs). -/
structure RamSpecs where
  ddr : Option Nat := none
  capacity_gb : Option Nat := none
  speed_mhz : Option Nat := none
deriving DecidableEq, Repr

/-- models.py Component. -/
structure Component where
  name : String
  category : String
  specs : RamSpecs := {}
  individual_price : ℚ := 0
deriving DecidableEq, Repr

/-- models.py ComboDeal (mb_* fields and cpu_cores/cpu_mc_score are never
read by the functions under verification and are omitted). -/
structure ComboDeal where
  retailer : String
  combo_type : String
  components : List Component := []
  combo_price : ℚ := 0
  individual_total : ℚ := 0
  savings : ℚ := 0
  url : String := ""
  cpu_name : String := ""
  cpu_sc_score : Int := 0
  motherboard_name : String := ""
  ram_name : String := ""
  ram_speed_mhz : Nat := 0
  ram_capacity_gb : Nat := 0
  in_stock : Bool := true
deriving DecidableEq, Repr

/-- models.py RAMDeal. -/
structure RAMDeal where
  retailer : String
  name : String
  capacity_gb : Nat := 0
  speed_mhz : Nat := 0
  ddr_version : Nat := 5
  price : ℚ := 0
  amazon_price : ℚ := 0
  savings : ℚ := 0
  url : String := ""
deriving DecidableEq, Repr

/-- config.py Config, restricted to the fields the filter engine reads. -/
structure Config where
  min_budget : ℚ := 500
  max_budget : ℚ := 1300
  min_ram_gb : Nat := 32
deriving DecidableEq, Repr

/-- models.py ComboDeal.get_component: first component of the category. -/
def ComboDeal.get_component (d : ComboDeal) (category : String) : Option Component :=
  d.components.find? fun c => c.category == category

/-! ## Component classifiers (scrapers/newegg.py, microcenter.py, amazon.py)

The Newegg classifier checks motherboard keywords first; the Micro Center
and Amazon classifiers check CPU keywords first. -/

namespace Newegg

def mb_keywords : List String :=
  ["x870", "x670", "b850", "b650", "b550", "x570",
   "z790", "z690", "b760", "b660", "z890",
   "motherboard", "mainboard",
   "rog strix", "tuf gaming", "mag ", "aorus", "prime"]

def cpu_keywords : List String :=
  ["ryzen", "core i", "core ultra", "threadripper",
   "9850x3d", "9800x3d", "9700x", "9600x", "9950x", "9900x",
   "7800x3d", "7700x", "7600x", "7950x", "7900x",
   "14900k", "14700k", "14600k", "13900k", "13700k", "13600k",
   "285k", "265k", "245k"]

def ram_keywords : List String :=
  ["ddr5", "ddr4", "ram", "memory", "trident", "vengeance", "fury",
   "corsair cmh", "corsair cmk", "v-color", "v color", "tmxs",
   "team group", "ff3d", "kingston fury", "gskill", "g.skill"]

/-- The regex \d{3}-\d{9,}[a-z]{0,4} (CPU vendor part numbers). -/
def cpuSkuPat : List RPiece :=
  [rep isDigitB 3 (some 3), lit '-', rep isDigitB 9 none, rep isLowerAlphaB 0 (some 4)]

/-- scrapers/newegg.py _detect_category: motherboard keywords are checked
before CPU keywords, then the CPU SKU regex, then RAM keywords. -/
def detect_category (name : String) : String :=
  let name_lower := lowerStr name
  let compact := name_lower.filter fun c => isLowerAlnumB c || c == '-'
  if containsAny mb_keywords name_lower then "motherboard"
  else if containsAny cpu_keywords name_lower then "cpu"
  else if (searchPieces cpuSkuPat compact).isSome then "cpu"
  else if containsAny ram_keywords name_lower then "ram"
  else "unknown"

end Newegg

namespace Microcenter

def cpu_keywords : List String :=
  ["ryzen", "core i", "core ultra", "threadripper",
   "9800x3d", "9700x", "9600x", "9950x", "9900x",
   "7800x3d", "7700x", "7600x", "7950x", "7900x",
   "14900k", "14700k", "14600k", "13900k", "13700k", "13600k",
   "285k", "265k", "245k"]

def mb_keywords : List String :=
  ["x870", "x670", "b850", "b650", "b550", "x570",
   "z790", "z690", "b760", "b660", "z890",
   "motherboard", "mainboard",
   "rog strix", "tuf gaming", "mag ", "aorus", "prime"]

def ram_keywords : List String :=
  ["ddr5", "ddr4", "ram", "memory", "trident", "vengeance", "fury"]

/-- scrapers/microcenter.py _detect_category: CPU keywords are checked
first, then motherboard keywords, then RAM keywords. -/
def detect_category (name : String) : String :=
  let name_lower := lowerStr name
  if containsAny cpu_keywords name_lower then "cpu"
  else if containsAny mb_keywords name_lower then "motherboard"
  else if containsAny ram_keywords name_lower then "ram"
  else "unknown"

end Microcenter

namespace Amazon

def cpu_keywords : List String := Microcenter.cpu_keywords

def mb_keywords : List String := Microcenter.mb_keywords

def ram_keywords : List String := Microcenter.ram_keywords

/-- scrapers/amazon.py _detect_category: identical rule order and keyword
lists as the Micro Center classifier (CPU first). -/
def detect_category (name : String) : String :=
  let name_lower := lowerStr name
  if containsAny cpu_keywords name_lower then "cpu"
  else if containsAny mb_keywords name_lower then "motherboard"
  else if containsAny ram_keywords name_lower then "ram"
  else "unknown"

end Amazon

/-! ## Regex patterns of the RAM spec extractors and price parsers -/

/-- ddr(\d) -/
def ddrPat : List RPiece := [lit 'd', lit 'd', lit 'r', rep isDigitB 1 (some 1)]

/-- (\d+)\s*x\s*(\d+)\s*gb (kit notation) -/
def kitPat : List RPiece :=
  [rep isDigitB 1 none, rep isSpaceB 0 none, lit 'x', rep isSpaceB 0 none,
   rep isDigitB 1 none, rep isSpaceB 0 none, lit 'g', lit 'b']

/-- (\d+)\s*gb (plain capacity) -/
def capPat : List RPiece := [rep isDigitB 1 none, rep isSpaceB 0 none, lit 'g', lit 'b']

/-- (?:cmh|cmk)(\d+)gx(\d)m\d+n?(\d{4,5}) (Corsair SKU) -/
def corsairPat : List RPiece :=
  [lit 'c', lit 'm', rep (fun c => c == 'h' || c == 'k') 1 (some 1),
   rep isDigitB 1 none, lit 'g', lit 'x', rep isDigitB 1 (some 1), lit 'm',
   rep isDigitB 1 none, rep (fun c => c == 'n') 0 (some 1), rep isDigitB 4 (some 5)]

/-- tmxs[a-z0-9]*?(\d{2})(\d{3})(\d{2}) (V-Color SKU) -/
def vcolorPat : List RPiece :=
  [lit 't', lit 'm', lit 'x', lit 's', repLazy isLowerAlnumB 0 none,
   rep isDigitB 2 (some 2), rep isDigitB 3 (some 3), rep isDigitB 2 (some 2)]

/-- veb5(\d{2})g(\d{2})(\d{2}) (Patriot SKU) -/
def patriotPat : List RPiece :=
  [lit 'v', lit 'e', lit 'b', lit '5', rep isDigitB 2 (some 2), lit 'g',
   rep isDigitB 2 (some 2), rep isDigitB 2 (some 2)]

/-- ddr\d[- ]?(\d{4,5}) (speed token) -/
def speedPat : List RPiece :=
  [lit 'd', lit 'd', lit 'r', rep isDigitB 1 (some 1),
   rep (fun c => c == '-' || c == ' ') 0 (some 1), rep isDigitB 4 (some 5)]

namespace Newegg

/-- scrapers/newegg.py _parse_price: drop commas, keep digits and dots,
run Python float, and fall back to 0 on ValueError. -/
def parse_price (text : String) : ℚ :=
  if text.data = [] then 0
  else
    let noCommas := text.data.filter fun c => c ≠ ','
    let cleaned := noCommas.filter fun c => isDigitB c || c == '.'
    match pyFloat cleaned with
    | some q => q
    | none => 0

/-- scrapers/newegg.py _parse_ram_specs: explicit tokens first, then the
Corsair, V-Color and Patriot SKU fallbacks with setdefault semantics, then
the speed token (which overwrites). -/
def parse_ram_specs (name : String) : RamSpecs :=
  let name_lower := lowerStr name
  let compact := name_lower.filter isLowerAlnumB
  let s1 : RamSpecs :=
    match searchPieces ddrPat name_lower with
    | some gs => { ddr := some (natOfDigits (sliceAt gs 3)) }
    | none =>
      if containsSeq "gx5".data compact || containsSeq "ddr5".data compact ||
          containsSeq "tmxs".data compact || containsSeq "veb5".data compact then
        { ddr := some 5 }
      else {}
  let s2 : RamSpecs :=
    match searchPieces kitPat name_lower with
    | some gs =>
      { s1 with capacity_gb := some (natOfDigits (sliceAt gs 0) * natOfDigits (sliceAt gs 4)) }
    | none =>
      match searchPieces capPat name_lower with
      | some gs => { s1 with capacity_gb := some (natOfDigits (sliceAt gs 0)) }
      | none => s1
  let s3 : RamSpecs :=
    match searchPieces corsairPat compact with
    | some gs =>
      { capacity_gb := s2.capacity_gb <|> some (natOfDigits (sliceAt gs 3)),
        ddr := s2.ddr <|> some (natOfDigits (sliceAt gs 6)),
        speed_mhz := s2.speed_mhz <|> some (natOfDigits (sliceAt gs 10)) }
    | none => s2
  let s4 : RamSpecs :=
    match searchPieces vcolorPat compact with
    | some gs =>
      let per_stick := natOfDigits (sliceAt gs 5)
      let speed_guess := natOfDigits ((sliceAt gs 6).take 2) * 100
      let a := if per_stick ∈ [8, 16, 24, 32, 48, 64] then
          { s3 with capacity_gb := s3.capacity_gb <|> some (per_stick * 2) }
        else s3
      let b := if 4800 ≤ speed_guess ∧ speed_guess ≤ 9000 then
          { a with speed_mhz := a.speed_mhz <|> some speed_guess }
        else a
      { b with ddr := b.ddr <|> some 5 }
    | none => s3
  let s5 : RamSpecs :=
    match searchPieces patriotPat compact with
    | some gs =>
      { capacity_gb := s4.capacity_gb <|> some (natOfDigits (sliceAt gs 4)),
        speed_mhz := s4.speed_mhz <|> some (natOfDigits (sliceAt gs 6) * 100),
        ddr := s4.ddr <|> some 5 }
    | none => s4
  match searchPieces speedPat name_lower with
  | some gs => { s5 with speed_mhz := some (natOfDigits (sliceAt gs 5)) }
  | none => s5

end Newegg

namespace Microcenter

/-- scrapers/microcenter.py _parse_ram_specs: ddr token, plain capacity
(no kit handling), speed token. -/
def parse_ram_specs (name : String) : RamSpecs :=
  let name_lower := lowerStr name
  let s1 : RamSpecs :=
    match searchPieces ddrPat name_lower with
    | some gs => { ddr := some (natOfDigits (sliceAt gs 3)) }
    | none => {}
  let s2 : RamSpecs :=
    match searchPieces capPat name_lower with
    | some gs => { s1 with capacity_gb := some (natOfDigits (sliceAt gs 0)) }
    | none => s1
  match searchPieces speedPat name_lower with
  | some gs => { s2 with speed_mhz := some (natOfDigits (sliceAt gs 5)) }
  | none => s2

end Microcenter

namespace Amazon

/-- scrapers/amazon.py _parse_ram_specs: ddr token, plain capacity
(no kit handling), speed token. -/
def parse_ram_specs (name : String) : RamSpecs :=
  let name_lower := lowerStr name
  let s1 : RamSpecs :=
    match searchPieces ddrPat name_lower with
    | some gs => { ddr := some (natOfDigits (sliceAt gs 3)) }
    | none => {}
  let s2 : RamSpecs :=
    match searchPieces capPat name_lower with
    | some gs => { s1 with capacity_gb := some (natOfDigits (sliceAt gs 0)) }
    | none => s1
  match searchPieces speedPat name_lower with
  | some gs => { s2 with speed_mhz := some (natOfDigits (sliceAt gs 5)) }
  | none => s2

end Amazon

namespace PriceLookup

/-- [\$]?([\d,]+\.?\d*) (price_lookup.py) -/
def pricePat : List RPiece :=
  [rep (fun c => c == '$') 0 (some 1), rep (fun c => isDigitB c || c == ',') 1 none,
   rep (fun c => c == '.') 0 (some 1), rep isDigitB 0 none]

/-- price_lookup.py AmazonPriceLookup._parse_price: first regex match of the
numeral pattern, commas removed, Python float, 0 on no match or ValueError.
Captured group 1 spans the last three pieces of the pattern. -/
def parse_price (text : String) : ℚ :=
  if text.data = [] then 0
  else
    match searchPieces pricePat text.data with
    | some gs =>
      let price_str := (sliceAt gs 1 ++ sliceAt gs 2 ++ sliceAt gs 3).filter fun c => c ≠ ','
      match pyFloat price_str with
      | some q => q
      | none => 0
    | none => 0

end PriceLookup

/-! ## Combo type detection and combo assembly -/

namespace Newegg

/-- scrapers/newegg.py _detect_combo_type.  The Python set comprehension
over categories only feeds membership tests, so list membership models it. -/
def detect_combo_type (components : List Component) : String :=
  let categories := components.map fun c => c.category
  let has_cpu := categories.contains "cpu"
  let has_mb := categories.contains "motherboard"
  let has_ram := categories.contains "ram"
  if has_cpu && has_mb && has_ram then "CPU+MB+RAM"
  else if has_cpu && has_ram then "CPU+RAM"
  else if has_mb && has_ram then "MB+RAM"
  else if has_cpu && has_mb then "CPU+MB"
  else "OTHER"

end Newegg

namespace Microcenter

/-- scrapers/microcenter.py _detect_combo_type (same text as Newegg). -/
def detect_combo_type (components : List Component) : String :=
  let categories := components.map fun c => c.category
  let has_cpu := categories.contains "cpu"
  let has_mb := categories.contains "motherboard"
  let has_ram := categories.contains "ram"
  if has_cpu && has_mb && has_ram then "CPU+MB+RAM"
  else if has_cpu && has_ram then "CPU+RAM"
  else if has_mb && has_ram then "MB+RAM"
  else if has_cpu && has_mb then "CPU+MB"
  else "OTHER"

end Microcenter

namespace Amazon

/-- scrapers/amazon.py _detect_combo_type (same text as Newegg). -/
def detect_combo_type (components : List Component) : String :=
  let categories := components.map fun c => c.category
  let has_cpu := categories.contains "cpu"
  let has_mb := categories.contains "motherboard"
  let has_ram := categories.contains "ram"
  if has_cpu && has_mb && has_ram then "CPU+MB+RAM"
  else if has_cpu && has_ram then "CPU+RAM"
  else if has_mb && has_ram then "MB+RAM"
  else if has_cpu && has_mb then "CPU+MB"
  else "OTHER"

end Amazon

/-- A raw component dict handed to parse_combo_item; an empty category
string stands for an absent/falsy category key. -/
structure RawComponent where
  name : String := ""
  category : String := ""
deriving DecidableEq, Repr

/-- A raw combo dict with keys title, price, url, components. -/
structure RawCombo where
  title : String := ""
  price : String := ""
  url : String := ""
  components : List RawComponent := []
deriving DecidableEq, Repr

def NEWEGG_BASE_URL : String := "https://www.newegg.com"

namespace Newegg

/-- scrapers/newegg.py parse_combo_item: classify each raw component (unless
pre-tagged), extract RAM specs with a DDR5 default, infer the combo type,
parse the price, absolutize the URL and populate the enriched fields. -/
def parse_combo_item (raw : RawCombo) : ComboDeal :=
  let components := raw.components.map fun comp_data =>
    let name := comp_data.name
    let category := if comp_data.category ≠ "" then comp_data.category else detect_category name
    let specs : RamSpecs :=
      if category == "ram" then
        let s := parse_ram_specs name
        if s.ddr = none then { s with ddr := some 5 } else s
      else {}
    { name := name, category := category, specs := specs }
  let combo_type := detect_combo_type components
  let combo_price := parse_price raw.price
  let url :=
    if raw.url ≠ "" ∧ leadsWith "/".data raw.url.data then NEWEGG_BASE_URL ++ raw.url
    else raw.url
  let deal : ComboDeal :=
    { retailer := "Newegg", combo_type := combo_type, components := components,
      combo_price := combo_price, url := url }
  let deal := match deal.get_component "cpu" with
    | some cpu => { deal with cpu_name := cpu.name }
    | none => deal
  let deal := match deal.get_component "motherboard" with
    | some mb => { deal with motherboard_name := mb.name }
    | none => deal
  match deal.get_component "ram" with
  | some ram =>
    { deal with ram_name := ram.name, ram_speed_mhz := ram.specs.speed_mhz.getD 0,
                ram_capacity_gb := ram.specs.capacity_gb.getD 0 }
  | none => deal

end Newegg

/-! ## Standalone RAM parser (scrapers/ram.py) -/

namespace RamScrape

def NON_RAM_KEYWORDS : List String :=
  ["laptop", "notebook", "monitor", "ssd", "nvme", "hard drive",
   "printer", "router", "keyboard", "mouse", "headset", "webcam",
   "case", "chassis", "power supply", "psu", "cooler", "fan",
   "gpu", "graphics card", "motherboard", "mainboard",
   "cpu", "processor", "intel core", "amd ryzen",
   "sodimm", "so-dimm"]

def RAM_BRAND_KEYWORDS : List String :=
  ["corsair", "g.skill", "gskill", "kingston", "crucial", "patriot",
   "v-color", "v color", "team", "mushkin", "pny", "silicon power",
   "oloy", "xpg", "adata"]

/-- scrapers/ram.py _is_likely_ram. -/
def is_likely_ram (name : String) : Bool :=
  let lower := lowerStr name
  let indicator := containsAny
    ["ddr5", "memory", "ram", "dimm", "trident", "vengeance", "fury", "flare",
     "ripjaws", "dominator"] lower
  let has_ram_indicator := indicator || containsAny RAM_BRAND_KEYWORDS lower
  let has_non_ram := containsAny NON_RAM_KEYWORDS lower
  has_ram_indicator && !has_non_ram

/-- scrapers/ram.py _parse_ram_deal: RAM-likeliness gate, spec extraction via
the Newegg extractor, DDR5 gate with a ddr5-substring fallback, and the
capacity/price positivity gate. -/
def parse_ram_deal (name : String) (price : ℚ) (url : String) (retailer : String) :
    Option RAMDeal :=
  if !is_likely_ram name then none
  else
    let specs := Newegg.parse_ram_specs name
    let ddr := specs.ddr.getD 0
    let capacity := specs.capacity_gb.getD 0
    let speed := specs.speed_mhz.getD 0
    if ddr ≠ 5 ∧ ddr ≠ 0 then none
    else
      let ddrFinal : Option Nat :=
        if ddr = 0 then
          if containsSeq "ddr5".data (lowerStr name) then some 5 else none
        else some ddr
      match ddrFinal with
      | none => none
      | some ddrv =>
        if capacity ≤ 0 ∨ price ≤ 0 then none
        else some { retailer := retailer, name := name, capacity_gb := capacity,
                    speed_mhz := speed, ddr_version := ddrv, price := price, url := url }

end RamScrape

/-! ## Filter and rank engine (filters.py, ram_filters.py)

Python list.sort is a stable sort ascending by the key; sorting by the key
(-savings, -score) is sorting by the Boolean relation dealLE below, which
core mergeSort (also stable) realises. -/

namespace Filters

/-- filters.py check_ddr5. -/
def check_ddr5 (deal : ComboDeal) : Bool :=
  match deal.get_component "ram" with
  | none => false
  | some ram => ram.specs.ddr == some 5

/-- filters.py check_ram_capacity. -/
def check_ram_capacity (deal : ComboDeal) (min_gb : Nat) : Bool :=
  match deal.get_component "ram" with
  | none => false
  | some ram => min_gb ≤ ram.specs.capacity_gb.getD 0

/-- filters.py check_budget. -/
def check_budget (deal : ComboDeal) (min_price max_price : ℚ) : Bool :=
  decide (min_price ≤ deal.combo_price ∧ deal.combo_price ≤ max_price)

/-- filters.py check_gpu_compatibility: only logs, always returns True. -/
def check_gpu_compatibility (_deal : ComboDeal) : Bool := true

/-- The comparison realising the sort key (-savings, -cpu_sc_score). -/
def dealLE (a b : ComboDeal) : Bool :=
  decide (b.savings < a.savings ∨ (a.savings = b.savings ∧ b.cpu_sc_score ≤ a.cpu_sc_score))

/-- filters.py filter_deals: a deal survives iff no rejection reason fires,
then the survivors are sorted by savings descending, benchmark descending. -/
def filter_deals (deals : List ComboDeal) (config : Config) : List ComboDeal :=
  (deals.filter fun d =>
      d.in_stock && check_ddr5 d && check_ram_capacity d config.min_ram_gb &&
      check_budget d config.min_budget config.max_budget &&
      check_gpu_compatibility d).mergeSort dealLE

end Filters

namespace RamFilters

/-- ram_filters.py RAM_PRICE_LIMITS as a lookup (dict.get). -/
def RAM_PRICE_LIMITS (capacity : Nat) : Option ℚ :=
  if capacity = 48 then some 450
  else if capacity = 64 then some 650
  else if capacity = 96 then some 800
  else if capacity = 128 then some 800
  else none

def VALID_CAPACITIES : List Nat := [48, 64, 96, 128]

/-- ram_filters.py check_ram_capacity. -/
def check_ram_capacity (deal : RAMDeal) : Bool := VALID_CAPACITIES.contains deal.capacity_gb

/-- ram_filters.py check_ram_ddr5. -/
def check_ram_ddr5 (deal : RAMDeal) : Bool := deal.ddr_version == 5

/-- ram_filters.py check_ram_price. -/
def check_ram_price (deal : RAMDeal) : Bool :=
  match RAM_PRICE_LIMITS deal.capacity_gb with
  | none => false
  | some limit => decide (0 < deal.price ∧ deal.price ≤ limit)

/-- The comparison realising the sort key (-savings, -speed_mhz). -/
def ramLE (a b : RAMDeal) : Bool :=
  decide (b.savings < a.savings ∨ (a.savings = b.savings ∧ b.speed_mhz ≤ a.speed_mhz))

/-- ram_filters.py filter_ram_deals. -/
def filter_ram_deals (deals : List RAMDeal) : List RAMDeal :=
  (deals.filter fun d =>
      check_ram_ddr5 d && check_ram_capacity d && check_ram_price d).mergeSort ramLE

end RamFilters

/-! ## Deal identity and reconciliation (notifications.py)

The seen-deals file and the Discord webhook are external state: the file is
modelled as an explicit list of strings whose membership is the persisted
set, and each physical webhook dispatch is an oracle value (HTTP status or a
raised transport error). -/

namespace Notifications

/-- /dp/([A-Z0-9]{10}) (the Amazon ASIN pattern). -/
def asinPat : List RPiece :=
  [lit '/', lit 'd', lit 'p', lit '/', rep isAsinCharB 10 (some 10)]

/-- notifications.py normalize_url. -/
def normalize_url (url : String) : String :=
  if containsSeq "amazon.com".data url.data then
    match searchPieces asinPat url.data with
    | some gs => "https://www.amazon.com/dp/" ++ String.mk (sliceAt gs 4)
    | none => url
  else url

/-- notifications.py retailer_domain_map (inside find_expired_deals). -/
def retailer_domain_map : List (String × List String) :=
  [("newegg.com", ["NeweggScraper", "RAM-NeweggRAMScraper"]),
   ("amazon.com", ["AmazonScraper", "RAM-AmazonRAMScraper"]),
   ("microcenter.com", ["MicroCenterScraper", "RAM-MicroCenterRAMScraper"]),
   ("bhphotovideo.com", ["BHPhotoScraper", "RAM-BHPhotoRAMScraper"])]

/-- All URLs scraped this run, normalized (the current_urls set). -/
def currentUrls (all_deals : List ComboDeal) (all_ram_deals : List RAMDeal) : List String :=
  (all_deals.filter fun d => d.url ≠ "").map (fun d => normalize_url d.url) ++
    (all_ram_deals.filter fun d => d.url ≠ "").map fun d => normalize_url d.url

/-- Scraper names whose per-source status is ok. -/
def ok_scrapers (scraper_results : List (String × String)) : List String :=
  (scraper_results.filter fun r => r.2 == "ok").map fun r => r.1

/-- The inner domain loop of find_expired_deals: the url belongs to a mapped
retailer domain one of whose scrapers succeeded.  The Python for/break adds
the url at most once, so it equals this any-test. -/
def source_ok (url : String) (scraper_results : List (String × String)) : Bool :=
  retailer_domain_map.any fun dm =>
    containsSeq dm.1.data url.data && dm.2.any fun s => (ok_scrapers scraper_results).contains s

/-- notifications.py find_expired_deals.  seen_urls and the returned
disappeared set are Python sets, modelled by lists up to membership. -/
def find_expired_deals (all_deals : List ComboDeal) (all_ram_deals : List RAMDeal)
    (seen_urls : List String) (scraper_results : List (String × String)) :
    List ComboDeal × List String :=
  let current := currentUrls all_deals all_ram_deals
  let oos_deals := all_deals.filter fun d => !d.in_stock && seen_urls.contains d.url
  let disappeared := seen_urls.filter fun url =>
    !current.contains url && source_ok url scraper_results
  (oos_deals, disappeared)

/-- Outcome of one physical webhook dispatch: a completed HTTP request with
some status code, or a raised transport exception. -/
inductive Dispatch where
  | status (code : Nat) : Dispatch
  | raised : Dispatch
deriving DecidableEq, Repr

/-- Number of Discord batches for n embeds (10 per message). -/
def numBatches (n : Nat) : Nat := (n + 9) / 10

/-- The batch loop of send_discord_notifications: a raised exception aborts;
a completed request continues whatever its status code (204 logs at info,
anything else only logs a warning). -/
def batchLoopLenient (dispatch : Nat → Dispatch) (i : Nat) : Nat → Bool
  | 0 => true
  | n + 1 =>
    match dispatch i with
    | .raised => false
    | .status _ => batchLoopLenient dispatch (i + 1) n

/-- The batch loop of send_discord_expired_notifications via _send_webhook:
only HTTP 204 counts as success, anything else aborts. -/
def batchLoopStrict (dispatch : Nat → Dispatch) (i : Nat) : Nat → Bool
  | 0 => true
  | n + 1 =>
    if dispatch i = Dispatch.status 204 then batchLoopStrict dispatch (i + 1) n
    else false

/-- notifications.py load_seen_urls: the persisted seen-set, normalized on
load (the store list models the file contents up to set membership). -/
def load_seen_urls (store : List String) : List String := store.map normalize_url

/-- The new_deals list computed by send_discord_notifications: deals with a
URL whose normalized form is not yet in the seen-set. -/
def new_deals_of (deals : List ComboDeal) (store : List String) : List ComboDeal :=
  deals.filter fun d => d.url ≠ "" && !(load_seen_urls store).contains (normalize_url d.url)

/-- notifications.py send_discord_notifications as a state transformer:
given the persisted seen-set (store) and the dispatch oracle, return the
function result, the resulting store, and whether _save_seen_urls ran.
Saving adds the normalized new URLs to the seen-set. -/
def send_discord_notifications (deals : List ComboDeal) (webhook_url : String)
    (store : List String) (dispatch : Nat → Dispatch) : Nat × List String × Bool :=
  if webhook_url = "" then (0, store, false)
  else
    let new_deals := new_deals_of deals store
    if new_deals = [] then (0, store, false)
    else if batchLoopLenient dispatch 0 (numBatches new_deals.length) then
      let final := (new_deals.map fun d => normalize_url d.url).foldl
        (fun s u => if s.contains u then s else s ++ [u]) (load_seen_urls store)
      (new_deals.length, final, true)
    else (0, store, false)

/-- notifications.py send_discord_expired_notifications as a state
transformer.  The embeds list has one entry per OOS deal and per disappeared
URL; on full success the expired identities are removed from the seen-set
(discard of each OOS url, then set difference) and it is saved. -/
def send_discord_expired_notifications (oos_deals : List ComboDeal)
    (disappeared_urls : List String) (webhook_url : String)
    (store : List String) (dispatch : Nat → Dispatch) : Nat × List String × Bool :=
  if webhook_url = "" then (0, store, false)
  else
    let total := oos_deals.length + disappeared_urls.length
    if total = 0 then (0, store, false)
    else if batchLoopStrict dispatch 0 (numBatches total) then
      let afterOos := (load_seen_urls store).filter fun u =>
        !(oos_deals.map fun d => d.url).contains u
      let final := afterOos.filter fun u => !disappeared_urls.contains u
      (total, final, true)
    else (0, store, false)

end Notifications

/-! ## Theorems -/

/-- C3: combo_type is a pure, order-independent function of the set of
distinct component categories present: the three mapped pairs and the full
triple give their named types, and any category set with fewer than two
recognized categories gives OTHER; the Micro Center and Amazon detectors
agree with the Newegg one on every input, and permuting or duplicating
components never changes the result. -/
theorem c3_theorem :
    (∀ cs₁ cs₂ : List Component,
        (∀ cat : String, cat ∈ cs₁.map Component.category ↔ cat ∈ cs₂.map Component.category) →
        Newegg.detect_combo_type cs₁ = Newegg.detect_combo_type cs₂) ∧
    (∀ cs : List Component, Microcenter.detect_combo_type cs = Newegg.detect_combo_type cs) ∧
    (∀ cs : List Component, Amazon.detect_combo_type cs = Newegg.detect_combo_type cs) ∧
    (∀ cs : List Component,
        ("cpu" ∈ cs.map Component.category ∧ "motherboard" ∈ cs.map Component.category ∧
            "ram" ∈ cs.map Component.category →
          Newegg.detect_combo_type cs = "CPU+MB+RAM") ∧
        ("cpu" ∈ cs.map Component.category ∧ "ram" ∈ cs.map Component.category ∧
            "motherboard" ∉ cs.map Component.category →
          Newegg.detect_combo_type cs = "CPU+RAM") ∧
        ("motherboard" ∈ cs.map Component.category ∧ "ram" ∈ cs.map Component.category ∧
            "cpu" ∉ cs.map Component.category →
          Newegg.detect_combo_type cs = "MB+RAM") ∧
        ("cpu" ∈ cs.map Component.category ∧ "motherboard" ∈ cs.map Component.category ∧
            "ram" ∉ cs.map Component.category →
          Newegg.detect_combo_type cs = "CPU+MB") ∧
        (¬ ("cpu" ∈ cs.map Component.category ∧ "motherboard" ∈ cs.map Component.category) →
         ¬ ("cpu" ∈ cs.map Component.category ∧ "ram" ∈ cs.map Component.category) →
         ¬ ("motherboard" ∈ cs.map Component.category ∧ "ram" ∈ cs.map Component.category) →
          Newegg.detect_combo_type cs = "OTHER")) := by
  refine ⟨?_, ?_, ?_, ?_⟩
  · intro cs₁ cs₂ h
    simp only [Newegg.detect_combo_type, List.contains, List.elem_eq_mem]
    rw [decide_eq_decide.mpr (h "cpu"), decide_eq_decide.mpr (h "motherboard"),
      decide_eq_decide.mpr (h "ram")]
  · intro cs
    rfl
  · intro cs
    rfl
  · intro cs
    refine ⟨?_, ?_, ?_, ?_, ?_⟩
    · rintro ⟨h1, h2, h3⟩
      simp [Newegg.detect_combo_type, h1, h2, h3]
    · rintro ⟨h1, h2, h3⟩
      simp [Newegg.detect_combo_type, h1, h2, h3]
    · rintro ⟨h1, h2, h3⟩
      simp [Newegg.detect_combo_type, h1, h2, h3]
    · rintro ⟨h1, h2, h3⟩
      simp [Newegg.detect_combo_type, h1, h2, h3]
    · intro hcm hcr hmr
      by_cases h1 : "cpu" ∈ cs.map Component.category <;>
        by_cases h2 : "motherboard" ∈ cs.map Component.category <;>
        by_cases h3 : "ram" ∈ cs.map Component.category <;>
        simp [Newegg.detect_combo_type, h1, h2, h3] <;>
        tauto

/-- C3 witness: the theorem applied to two concrete permuted/duplicated
component lists sharing the category set of a CPU and RAM pair. -/
theorem c3_witness :
    Newegg.detect_combo_type
        [{ name := "a", category := "cpu" }, { name := "b", category := "ram" }] =
      Newegg.detect_combo_type
        [{ name := "c", category := "ram" }, { name := "d", category := "cpu" },
         { name := "e", category := "cpu" }] ∧
    Newegg.detect_combo_type
        [{ name := "a", category := "cpu" }, { name := "b", category := "ram" }] = "CPU+RAM" := by
  constructor
  · exact c3_theorem.1 _ _ (by intro cat; simp; tauto)
  · exact (c3_theorem.2.2.2 _).2.1 ⟨by simp, by simp, by simp⟩

/-- C1 counterexample: a motherboard title carrying CPU-family compatibility
text is classified cpu, not motherboard, by the Micro Center and Amazon
classifiers (they try CPU keywords first); only the Newegg classifier tries
motherboard keywords first. -/
theorem c1_counterexample :
    Microcenter.detect_category
        "ASUS Prime B650 Motherboard, Supports AMD Ryzen 9000 Series" = "cpu" ∧
    Amazon.detect_category
        "ASUS Prime B650 Motherboard, Supports AMD Ryzen 9000 Series" = "cpu" ∧
    Newegg.detect_category
        "ASUS Prime B650 Motherboard, Supports AMD Ryzen 9000 Series" = "motherboard" := by
  refine ⟨by decide, by decide, by decide⟩

/-- C1 amended: the Newegg classifier checks motherboard keywords/chipset
codes before CPU matching, so any title containing a motherboard indicator
classifies as motherboard there; the Micro Center and Amazon classifiers
check CPU keywords first, so any title containing a CPU keyword (even a
motherboard title with CPU-compatibility text) classifies as cpu there. -/
theorem c1_theorem :
    (∀ name : String, containsAny Newegg.mb_keywords (lowerStr name) = true →
        Newegg.detect_category name = "motherboard") ∧
    (∀ name : String, containsAny Microcenter.cpu_keywords (lowerStr name) = true →
        Microcenter.detect_category name = "cpu") ∧
    (∀ name : String, containsAny Amazon.cpu_keywords (lowerStr name) = true →
        Amazon.detect_category name = "cpu") := by
  refine ⟨?_, ?_, ?_⟩ <;> intro name h
  · simp [Newegg.detect_category, h]
  · simp [Microcenter.detect_category, h]
  · simp [Amazon.detect_category, h]

/-- C1 witness: the amended theorem applied to concrete titles. -/
theorem c1_witness :
    Newegg.detect_category "MSI MAG Z790 Tomahawk WIFI Motherboard" = "motherboard" ∧
    Microcenter.detect_category "AMD Ryzen 7 9800X3D" = "cpu" ∧
    Amazon.detect_category "Intel Core i7-14700K Desktop Processor" = "cpu" :=
  ⟨c1_theorem.1 _ (by decide), c1_theorem.2.1 _ (by decide), c1_theorem.2.2 _ (by decide)⟩

/-- C2 counterexample: the Micro Center and Amazon RAM spec extractors have
no kit pattern, so a name containing the kit token 2x16GB yields per-stick
capacity 16 there, not 2 times 16 = 32; the claim fails for those
extractors. -/
theorem c2_counterexample :
    (Amazon.parse_ram_specs "2x16GB DDR5-6000").capacity_gb = some 16 ∧
    (Microcenter.parse_ram_specs "2x16GB DDR5-6000").capacity_gb = some 16 ∧
    (16 : Nat) ≠ 2 * 16 := by
  refine ⟨by decide, by decide, by decide⟩

set_option maxHeartbeats 2000000 in
/-- C2 amended: the Newegg RAM spec extractor (also used by the standalone
RAM scraper) satisfies the claim: whenever the kit regex matches with stick
count n and per-stick size m, capacity_gb is n times m, taking precedence
over any plain kGB substring also present; in particular 32GB (2x16GB)
gives 32.  The Micro Center and Amazon extractors instead return the first
plain kGB numeral. -/
theorem c2_theorem :
    (∀ (name : String) (gs : List (List Char)),
        searchPieces kitPat (lowerStr name) = some gs →
        (Newegg.parse_ram_specs name).capacity_gb =
          some (natOfDigits (sliceAt gs 0) * natOfDigits (sliceAt gs 4))) ∧
    (Newegg.parse_ram_specs "G.SKILL 32GB (2x16GB) DDR5-6000").capacity_gb = some 32 ∧
    (∀ (name : String) (gs : List (List Char)),
        searchPieces capPat (lowerStr name) = some gs →
        (Microcenter.parse_ram_specs name).capacity_gb = some (natOfDigits (sliceAt gs 0)) ∧
        (Amazon.parse_ram_specs name).capacity_gb = some (natOfDigits (sliceAt gs 0))) := by
  refine ⟨?_, by decide, ?_⟩
  · intro name gs h
    simp only [Newegg.parse_ram_specs, h]
    repeat' split
    all_goals simp
  · intro name gs h
    constructor
    · simp only [Microcenter.parse_ram_specs, h]
      repeat' split
      all_goals simp
    · simp only [Amazon.parse_ram_specs, h]
      repeat' split
      all_goals simp

/-- C2 witness: the amended theorem applied to a concrete kit-format name
and a concrete plain-format name. -/
theorem c2_witness :
    (Newegg.parse_ram_specs "2 x 16GB").capacity_gb = some (2 * 16) ∧
    (Amazon.parse_ram_specs "Corsair 32GB DDR5").capacity_gb = some 32 := by
  constructor
  · have h := c2_theorem.1 "2 x 16GB"
      [['2'], [' '], ['x'], [' '], ['1', '6'], [], ['g'], ['b']] (by decide)
    rw [h]
    decide
  · have h := (c2_theorem.2.2 "Corsair 32GB DDR5"
      [['3', '2'], [], ['g'], ['b']] (by decide)).2
    rw [h]
    decide

/-- The combo ranking relation is transitive. -/
lemma dealLE_trans (a b c : ComboDeal) (h1 : Filters.dealLE a b) (h2 : Filters.dealLE b c) :
    Filters.dealLE a c := by
  simp only [Filters.dealLE, decide_eq_true_eq] at h1 h2 ⊢
  rcases h1 with h1 | ⟨e1, s1⟩ <;> rcases h2 with h2 | ⟨e2, s2⟩
  · exact Or.inl (lt_trans h2 h1)
  · refine Or.inl ?_
    rw [← e2]
    exact h1
  · refine Or.inl ?_
    rw [e1]
    exact h2
  · exact Or.inr ⟨e1.trans e2, le_trans s2 s1⟩

/-- The combo ranking relation is total. -/
lemma dealLE_total (a b : ComboDeal) : Filters.dealLE a b || Filters.dealLE b a := by
  simp only [Filters.dealLE, Bool.or_eq_true, decide_eq_true_eq]
  rcases lt_trichotomy a.savings b.savings with h | h | h
  · exact Or.inr (Or.inl h)
  · rcases le_total b.cpu_sc_score a.cpu_sc_score with hs | hs
    · exact Or.inl (Or.inr ⟨h, hs⟩)
    · exact Or.inr (Or.inr ⟨h.symm, hs⟩)
  · exact Or.inl (Or.inl h)

/-- C6: the combo filter keeps exactly the deals that are in stock, whose
RAM component is DDR5 with capacity at least the configured minimum, and
whose combo price lies in the configured budget window; the result is the
survivors sorted descending by savings, ties broken by single-core
benchmark score descending (so for equal savings a deal with score 0 — no
benchmark — sorts after one with a positive score). -/
theorem c6_theorem (deals : List ComboDeal) (config : Config) :
    (Filters.filter_deals deals config).Perm
      (deals.filter fun d =>
        d.in_stock &&
        (match d.get_component "ram" with
          | some ram => (ram.specs.ddr == some 5) &&
              decide (config.min_ram_gb ≤ ram.specs.capacity_gb.getD 0)
          | none => false) &&
        decide (config.min_budget ≤ d.combo_price ∧ d.combo_price ≤ config.max_budget)) ∧
    (Filters.filter_deals deals config).Pairwise fun a b =>
      b.savings < a.savings ∨ (a.savings = b.savings ∧ b.cpu_sc_score ≤ a.cpu_sc_score) := by
  constructor
  · refine (List.mergeSort_perm _ _).trans (List.Perm.of_eq (List.filter_congr ?_))
    intro d _
    simp only [Filters.check_ddr5, Filters.check_ram_capacity, Filters.check_budget,
      Filters.check_gpu_compatibility, Bool.and_true]
    cases hr : d.get_component "ram" <;> simp [Bool.and_assoc]
  · have hp := List.sorted_mergeSort dealLE_trans dealLE_total
      (deals.filter fun d =>
        d.in_stock && Filters.check_ddr5 d && Filters.check_ram_capacity d config.min_ram_gb &&
        Filters.check_budget d config.min_budget config.max_budget &&
        Filters.check_gpu_compatibility d)
    exact hp.imp fun h => of_decide_eq_true h

/-- The RAM ranking relation is transitive. -/
lemma ramLE_trans (a b c : RAMDeal) (h1 : RamFilters.ramLE a b) (h2 : RamFilters.ramLE b c) :
    RamFilters.ramLE a c := by
  simp only [RamFilters.ramLE, decide_eq_true_eq] at h1 h2 ⊢
  rcases h1 with h1 | ⟨e1, s1⟩ <;> rcases h2 with h2 | ⟨e2, s2⟩
  · exact Or.inl (lt_trans h2 h1)
  · refine Or.inl ?_
    rw [← e2]
    exact h1
  · refine Or.inl ?_
    rw [e1]
    exact h2
  · exact Or.inr ⟨e1.trans e2, le_trans s2 s1⟩

/-- The RAM ranking relation is total. -/
lemma ramLE_total (a b : RAMDeal) : RamFilters.ramLE a b || RamFilters.ramLE b a := by
  simp only [RamFilters.ramLE, Bool.or_eq_true, decide_eq_true_eq]
  rcases lt_trichotomy a.savings b.savings with h | h | h
  · exact Or.inr (Or.inl h)
  · rcases le_total b.speed_mhz a.speed_mhz with hs | hs
    · exact Or.inl (Or.inr ⟨h, hs⟩)
    · exact Or.inr (Or.inr ⟨h.symm, hs⟩)
  · exact Or.inl (Or.inl h)

/-- The standalone RAM acceptance predicate, spelled as the fixed tier
table of the specification. -/
lemma ram_accept_iff (d : RAMDeal) :
    (RamFilters.check_ram_ddr5 d && RamFilters.check_ram_capacity d &&
        RamFilters.check_ram_price d) = true ↔
      d.ddr_version = 5 ∧
        ((d.capacity_gb = 48 ∧ 0 < d.price ∧ d.price ≤ 450) ∨
         (d.capacity_gb = 64 ∧ 0 < d.price ∧ d.price ≤ 650) ∨
         (d.capacity_gb = 96 ∧ 0 < d.price ∧ d.price ≤ 800) ∨
         (d.capacity_gb = 128 ∧ 0 < d.price ∧ d.price ≤ 800)) := by
  by_cases h48 : d.capacity_gb = 48 <;> by_cases h64 : d.capacity_gb = 64 <;>
    by_cases h96 : d.capacity_gb = 96 <;> by_cases h128 : d.capacity_gb = 128 <;>
    simp [RamFilters.check_ram_ddr5, RamFilters.check_ram_capacity,
      RamFilters.check_ram_price, RamFilters.RAM_PRICE_LIMITS, RamFilters.VALID_CAPACITIES,
      h48, h64, h96, h128, and_assoc]

/-- C7: the standalone RAM filter accepts a deal iff it is DDR5, its
capacity is one of 48/64/96/128 GB, and its price is positive and at most
the fixed tier limit (48 to 450, 64 to 650, 96 and 128 to 800); a 32GB kit
is always rejected; a 64GB kit at exactly 650 passes while at 650.01 it is
rejected; survivors are sorted descending by savings with ties broken by
speed descending. -/
theorem c7_theorem (deals : List RAMDeal) :
    (∀ d : RAMDeal, d ∈ RamFilters.filter_ram_deals deals ↔
      d ∈ deals ∧ d.ddr_version = 5 ∧
        ((d.capacity_gb = 48 ∧ 0 < d.price ∧ d.price ≤ 450) ∨
         (d.capacity_gb = 64 ∧ 0 < d.price ∧ d.price ≤ 650) ∨
         (d.capacity_gb = 96 ∧ 0 < d.price ∧ d.price ≤ 800) ∨
         (d.capacity_gb = 128 ∧ 0 < d.price ∧ d.price ≤ 800))) ∧
    ((RamFilters.filter_ram_deals deals).Pairwise fun a b =>
      b.savings < a.savings ∨ (a.savings = b.savings ∧ b.speed_mhz ≤ a.speed_mhz)) ∧
    (∀ d ∈ RamFilters.filter_ram_deals deals, d.capacity_gb ≠ 32) ∧
    (∀ d ∈ deals, d.ddr_version = 5 → d.capacity_gb = 64 → d.price = 650 →
      d ∈ RamFilters.filter_ram_deals deals) ∧
    (∀ d : RAMDeal, d.capacity_gb = 64 → d.price = 65001 / 100 →
      d ∉ RamFilters.filter_ram_deals deals) := by
  have hmem : ∀ d : RAMDeal, d ∈ RamFilters.filter_ram_deals deals ↔
      d ∈ deals ∧ d.ddr_version = 5 ∧
        ((d.capacity_gb = 48 ∧ 0 < d.price ∧ d.price ≤ 450) ∨
         (d.capacity_gb = 64 ∧ 0 < d.price ∧ d.price ≤ 650) ∨
         (d.capacity_gb = 96 ∧ 0 < d.price ∧ d.price ≤ 800) ∨
         (d.capacity_gb = 128 ∧ 0 < d.price ∧ d.price ≤ 800)) := by
    intro d
    rw [RamFilters.filter_ram_deals, List.mem_mergeSort, List.mem_filter, ram_accept_iff]
  refine ⟨hmem, ?_, ?_, ?_, ?_⟩
  · have hp := List.sorted_mergeSort ramLE_trans ramLE_total
      (deals.filter fun d =>
        RamFilters.check_ram_ddr5 d && RamFilters.check_ram_capacity d &&
        RamFilters.check_ram_price d)
    exact hp.imp fun h => of_decide_eq_true h
  · intro d hd
    rcases ((hmem d).mp hd).2.2 with ⟨h, _⟩ | ⟨h, _⟩ | ⟨h, _⟩ | ⟨h, _⟩ <;> omega
  · intro d hd h5 h64 hp
    refine (hmem d).mpr ⟨hd, h5, Or.inr (Or.inl ⟨h64, ?_, ?_⟩)⟩ <;> (rw [hp]; try norm_num)
  · intro d h64 hp hd
    rcases ((hmem d).mp hd).2.2 with ⟨h, _, hle⟩ | ⟨h, _, hle⟩ | ⟨h, _, hle⟩ | ⟨h, _, hle⟩ <;>
      (rw [hp] at hle; first | omega | norm_num at hle)

/-- C7 witness: a concrete 64GB DDR5 kit at exactly 650 passes the filter,
and the same kit at 650.01 is rejected. -/
theorem c7_witness :
    ({ retailer := "Newegg", name := "kit", capacity_gb := 64, price := 650 } : RAMDeal) ∈
      RamFilters.filter_ram_deals
        [{ retailer := "Newegg", name := "kit", capacity_gb := 64, price := 650 }] ∧
    ({ retailer := "Newegg", name := "kit", capacity_gb := 64, price := 65001 / 100 } : RAMDeal) ∉
      RamFilters.filter_ram_deals
        [{ retailer := "Newegg", name := "kit", capacity_gb := 64, price := 65001 / 100 }] := by
  constructor
  · exact (c7_theorem _).2.2.2.1 _ (by simp) rfl rfl rfl
  · exact (c7_theorem _).2.2.2.2 _ rfl rfl

/-- Every character of every slice of a successful piece match comes from
the input string. -/
lemma matchPieces_chars : ∀ (ps : List RPiece) (s : List Char) (gs : List (List Char)),
    matchPieces ps s = some gs → ∀ g ∈ gs, ∀ c ∈ g, c ∈ s := by
  intro ps
  induction ps with
  | nil =>
    intro s gs h g hg c hc
    simp only [matchPieces, Option.some.injEq] at h
    subst h
    simp at hg
  | cons p ps ih =>
    intro s gs h g hg c hc
    simp only [matchPieces] at h
    obtain ⟨k, _, hfk⟩ := List.exists_of_findSome?_eq_some h
    cases hrec : matchPieces ps (s.drop k) with
    | none =>
      rw [hrec] at hfk
      simp at hfk
    | some rest =>
      rw [hrec] at hfk
      simp only [Option.some.injEq] at hfk
      subst hfk
      rcases List.mem_cons.mp hg with rfl | hg
      · exact List.take_subset _ _ hc
      · exact List.drop_subset _ _ (ih _ _ hrec g hg c hc)

/-- Every character of every slice of a successful search comes from the
input string. -/
lemma searchPieces_chars (ps : List RPiece) : ∀ (s : List Char) (gs : List (List Char)),
    searchPieces ps s = some gs → ∀ g ∈ gs, ∀ c ∈ g, c ∈ s := by
  intro s
  induction s with
  | nil =>
    intro gs h
    exact matchPieces_chars ps [] gs h
  | cons a t ih =>
    intro gs h g hg c hc
    simp only [searchPieces] at h
    cases hm : matchPieces ps (a :: t) with
    | some g0 =>
      rw [hm] at h
      simp only [Option.some.injEq] at h
      subst h
      exact matchPieces_chars ps _ _ hm g hg c hc
    | none =>
      rw [hm] at h
      exact List.mem_cons_of_mem a (ih gs h g hg c hc)

/-- Characters of an indexed slice come from the input string. -/
lemma sliceAt_chars {gs : List (List Char)} {s : List Char} (i : Nat)
    (h : ∀ g ∈ gs, ∀ c ∈ g, c ∈ s) : ∀ c ∈ sliceAt gs i, c ∈ s := by
  intro c hc
  unfold sliceAt at hc
  cases hg : gs.get? i with
  | none =>
    rw [hg] at hc
    simp at hc
  | some g =>
    rw [hg] at hc
    exact h g (List.get?_mem hg) c hc

/-- Python float raises on digit-free text. -/
lemma pyFloat_eq_none_of_no_digit {s : List Char} (h : s.filter isDigitB = []) :
    pyFloat s = none := by
  simp [pyFloat, h]

/-- Unfold pyFloat on text satisfying its validity condition. -/
lemma pyFloat_eq_some (s : List Char)
    (hcond : (s.filter isDigitB) ≠ [] ∧ s.count '.' ≤ 1 ∧
      s.all (fun c => isDigitB c || c == '.')) :
    pyFloat s = some ((natOfDigits (s.takeWhile fun c => c ≠ '.') : ℚ) +
      (natOfDigits ((s.dropWhile fun c => c ≠ '.').drop 1) : ℚ) /
        (10 : ℚ) ^ ((s.dropWhile fun c => c ≠ '.').drop 1).length) := by
  simp [pyFloat, hcond]

/-- Evaluate the Newegg price parser once the character cleaning is done. -/
lemma newegg_parse_price_eval (text : String) (l : List Char)
    (hne : ¬ text.data = [])
    (hl : ((text.data.filter fun c => c ≠ ',').filter fun c => isDigitB c || c == '.') = l) :
    Newegg.parse_price text = (pyFloat l).getD 0 := by
  simp only [Newegg.parse_price, if_neg hne, hl]
  cases pyFloat l <;> simp

/-- Evaluate the price-lookup parser once the regex match is known. -/
lemma pl_parse_price_eval (text : String) (gs : List (List Char)) (l : List Char)
    (hne : ¬ text.data = [])
    (hs : searchPieces PriceLookup.pricePat text.data = some gs)
    (hl : ((sliceAt gs 1 ++ sliceAt gs 2 ++ sliceAt gs 3).filter fun c => c ≠ ',') = l) :
    PriceLookup.parse_price text = (pyFloat l).getD 0 := by
  simp only [PriceLookup.parse_price, if_neg hne, hs, hl]
  cases pyFloat l <;> simp

/-- The cleaned digit string 1249.99 denotes exactly 124999/100. -/
lemma pyFloat_1249_99 :
    (pyFloat ['1', '2', '4', '9', '.', '9', '9']).getD 0 = (124999 / 100 : ℚ) := by
  rw [pyFloat_eq_some _ (by decide)]
  rw [show (['1', '2', '4', '9', '.', '9', '9'].takeWhile fun c => c ≠ '.') =
    ['1', '2', '4', '9'] from by decide]
  rw [show ((['1', '2', '4', '9', '.', '9', '9'].dropWhile fun c => c ≠ '.').drop 1) =
    ['9', '9'] from by decide]
  rw [show natOfDigits ['1', '2', '4', '9'] = 1249 from by decide]
  rw [show natOfDigits ['9', '9'] = 99 from by decide]
  norm_num

/-- Modelled from the spec: strip currency symbols and thousands separators,
then extract the FIRST decimal numeral and parse it, returning 0 when there
is none.  This is the specified contract of parse_price, stated separately
so it can be compared with the two implementations. -/
def spec_parse_price_first_numeral (text : String) : ℚ :=
  let stripped := text.data.filter fun c => c ≠ '$' ∧ c ≠ ','
  match searchPieces [rep isDigitB 1 none, rep (fun c => c == '.') 0 (some 1),
      rep isDigitB 0 none] stripped with
  | some gs => (pyFloat (sliceAt gs 0 ++ sliceAt gs 1 ++ sliceAt gs 2)).getD 0
  | none => 0

/-- C8 counterexample: on text containing two numerals the Newegg-style
parser concatenates every digit it sees (1020) instead of extracting the
first decimal numeral (10, which the price-lookup parser returns), so the
claimed contract fails for the Newegg-style parser and the two cited
implementations disagree with each other. -/
theorem c8_counterexample :
    Newegg.parse_price "$10 off $20" = 1020 ∧
    spec_parse_price_first_numeral "$10 off $20" = 10 ∧
    PriceLookup.parse_price "$10 off $20" = 10 ∧
    (1020 : ℚ) ≠ 10 := by
  refine ⟨?_, ?_, ?_, by norm_num⟩
  · rw [newegg_parse_price_eval _ ['1', '0', '2', '0'] (by decide) (by decide)]
    rw [pyFloat_eq_some _ (by decide)]
    rw [show (['1', '0', '2', '0'].takeWhile fun c => c ≠ '.') = ['1', '0', '2', '0'] from
      by decide]
    rw [show ((['1', '0', '2', '0'].dropWhile fun c => c ≠ '.').drop 1) = [] from by decide]
    rw [show natOfDigits ['1', '0', '2', '0'] = 1020 from by decide]
    norm_num [natOfDigits]
  · rw [show spec_parse_price_first_numeral "$10 off $20" = (pyFloat ['1', '0']).getD 0 from by
      simp only [spec_parse_price_first_numeral]
      rw [show searchPieces [rep isDigitB 1 none, rep (fun c => c == '.') 0 (some 1),
          rep isDigitB 0 none] ("$10 off $20".data.filter fun c => c ≠ '$' ∧ c ≠ ',') =
        some [['1', '0'], [], []] from by decide]
      rfl]
    rw [pyFloat_eq_some _ (by decide)]
    rw [show (['1', '0'].takeWhile fun c => c ≠ '.') = ['1', '0'] from by decide]
    rw [show ((['1', '0'].dropWhile fun c => c ≠ '.').drop 1) = [] from by decide]
    rw [show natOfDigits ['1', '0'] = 10 from by decide]
    norm_num [natOfDigits]
  · rw [pl_parse_price_eval _ [['$'], ['1', '0'], [], []] ['1', '0'] (by decide) (by decide)
      (by decide)]
    rw [pyFloat_eq_some _ (by decide)]
    rw [show (['1', '0'].takeWhile fun c => c ≠ '.') = ['1', '0'] from by decide]
    rw [show ((['1', '0'].dropWhile fun c => c ≠ '.').drop 1) = [] from by decide]
    rw [show natOfDigits ['1', '0'] = 10 from by decide]
    norm_num [natOfDigits]

/-- C8 amended: neither parser can raise (both are total functions that
fall back to 0); both parse the three canonical forms to exactly 1249.99;
every digit-free string parses to 0 in both; but only the price-lookup
parser extracts the first numeral, while the Newegg-style scraper parser
parses the concatenation of all digits and dots in the text. -/
theorem c8_theorem :
    Newegg.parse_price "$1,249.99" = 124999 / 100 ∧
    Newegg.parse_price "1249.99" = 124999 / 100 ∧
    Newegg.parse_price "$1249.99" = 124999 / 100 ∧
    PriceLookup.parse_price "$1,249.99" = 124999 / 100 ∧
    PriceLookup.parse_price "1249.99" = 124999 / 100 ∧
    PriceLookup.parse_price "$1249.99" = 124999 / 100 ∧
    (∀ s : String, s.data.all (fun c => !isDigitB c) →
      Newegg.parse_price s = 0 ∧ PriceLookup.parse_price s = 0) := by
  refine ⟨?_, ?_, ?_, ?_, ?_, ?_, ?_⟩
  · rw [newegg_parse_price_eval _ ['1', '2', '4', '9', '.', '9', '9'] (by decide) (by decide)]
    exact pyFloat_1249_99
  · rw [newegg_parse_price_eval _ ['1', '2', '4', '9', '.', '9', '9'] (by decide) (by decide)]
    exact pyFloat_1249_99
  · rw [newegg_parse_price_eval _ ['1', '2', '4', '9', '.', '9', '9'] (by decide) (by decide)]
    exact pyFloat_1249_99
  · rw [pl_parse_price_eval _ [['$'], ['1', ',', '2', '4', '9'], ['.'], ['9', '9']]
      ['1', '2', '4', '9', '.', '9', '9'] (by decide) (by decide) (by decide)]
    exact pyFloat_1249_99
  · rw [pl_parse_price_eval _ [[], ['1', '2', '4', '9'], ['.'], ['9', '9']]
      ['1', '2', '4', '9', '.', '9', '9'] (by decide) (by decide) (by decide)]
    exact pyFloat_1249_99
  · rw [pl_parse_price_eval _ [['$'], ['1', '2', '4', '9'], ['.'], ['9', '9']]
      ['1', '2', '4', '9', '.', '9', '9'] (by decide) (by decide) (by decide)]
    exact pyFloat_1249_99
  · intro s hs
    have hnod : ∀ c ∈ s.data, isDigitB c = false := by
      intro c hc
      have := (List.all_eq_true.mp hs) c hc
      simpa using this
    constructor
    · by_cases hd : s.data = []
      · simp [Newegg.parse_price, hd]
      · have hfil : (((s.data.filter fun c => c ≠ ',').filter
            fun c => isDigitB c || c == '.').filter isDigitB) = [] := by
          rw [List.filter_eq_nil_iff]
          intro c hc
          have hcs : c ∈ s.data := List.mem_of_mem_filter (List.mem_of_mem_filter hc)
          simp [hnod c hcs]
        simp only [Newegg.parse_price, hd, if_false]
        rw [pyFloat_eq_none_of_no_digit hfil]
    · by_cases hd : s.data = []
      · simp [PriceLookup.parse_price, hd]
      · cases hsr : searchPieces PriceLookup.pricePat s.data with
        | none => simp [PriceLookup.parse_price, hd, hsr]
        | some gs =>
          have hchars := searchPieces_chars _ _ _ hsr
          have hfil : (((sliceAt gs 1 ++ sliceAt gs 2 ++ sliceAt gs 3).filter
              fun c => c ≠ ',').filter isDigitB) = [] := by
            rw [List.filter_eq_nil_iff]
            intro c hc
            have hc2 := List.mem_of_mem_filter hc
            have hcs : c ∈ s.data := by
              rcases List.mem_append.mp hc2 with h2 | h3
              · rcases List.mem_append.mp h2 with h4 | h5
                · exact sliceAt_chars 1 hchars c h4
                · exact sliceAt_chars 2 hchars c h5
              · exact sliceAt_chars 3 hchars c h3
            simp [hnod c hcs]
          simp only [PriceLookup.parse_price, hd, if_false, hsr]
          rw [pyFloat_eq_none_of_no_digit hfil]

/-- C8 witness: the amended theorem applied to a concrete digit-free
string. -/
theorem c8_witness :
    Newegg.parse_price "Price: N/A" = 0 ∧ PriceLookup.parse_price "Price: N/A" = 0 :=
  (c8_theorem.2.2.2.2.2.2) "Price: N/A" (by decide)

/-- C4: reconciliation reports as disappeared exactly the seen identities
absent from the current (normalized) identity set whose owning retailer
domain has a scraper with fetch status ok; a seen identity whose owning
source reported a failed fetch is never reported, as in the concrete
seen = A,B / current = A,C examples below. -/
theorem c4_theorem :
    (∀ (url : String) (all_deals : List ComboDeal) (all_ram_deals : List RAMDeal)
        (seen_urls : List String) (scraper_results : List (String × String)),
      url ∈ (Notifications.find_expired_deals all_deals all_ram_deals seen_urls
          scraper_results).2 ↔
        url ∈ seen_urls ∧ url ∉ Notifications.currentUrls all_deals all_ram_deals ∧
          Notifications.source_ok url scraper_results = true) ∧
    (Notifications.find_expired_deals
        [{ retailer := "Newegg", combo_type := "CPU+MB+RAM",
           url := "https://www.newegg.com/combo/A" },
         { retailer := "Newegg", combo_type := "CPU+MB+RAM",
           url := "https://www.newegg.com/combo/C" }] []
        ["https://www.newegg.com/combo/A", "https://www.newegg.com/combo/B"]
        [("NeweggScraper", "ok")]).2 = ["https://www.newegg.com/combo/B"] ∧
    (Notifications.find_expired_deals
        [{ retailer := "Newegg", combo_type := "CPU+MB+RAM",
           url := "https://www.newegg.com/combo/A" },
         { retailer := "Newegg", combo_type := "CPU+MB+RAM",
           url := "https://www.newegg.com/combo/C" }] []
        ["https://www.newegg.com/combo/A", "https://www.newegg.com/combo/B"]
        [("NeweggScraper", "error")]).2 = [] := by
  refine ⟨?_, by decide, by decide⟩
  intro url all_deals all_ram_deals seen_urls scraper_results
  simp [Notifications.find_expired_deals, List.mem_filter, and_assoc]

/-- C4 witness: the characterization applied at a concrete seen identity
whose source succeeded and which is absent from the current set. -/
theorem c4_witness :
    "https://www.newegg.com/combo/B" ∈
      (Notifications.find_expired_deals [] [] ["https://www.newegg.com/combo/B"]
        [("NeweggScraper", "ok")]).2 :=
  (c4_theorem.1 _ _ _ _ _).mpr ⟨by decide, by decide, by decide⟩

/-- C9 counterexample: the Newegg assembler happily builds a ComboDeal with
two components of the same category — nothing deduplicates categories — so
the at-most-one-per-category invariant fails. -/
theorem c9_counterexample :
    ((Newegg.parse_combo_item
        { components := [{ name := "ddr5 alpha" }, { name := "ddr5 beta" }] }).components.map
      Component.category) = ["ram", "ram"] ∧
    (((Newegg.parse_combo_item
        { components := [{ name := "ddr5 alpha" }, { name := "ddr5 beta" }] }).components.filter
      fun c => c.category == "ram").length = 2) := by
  refine ⟨by decide, by decide⟩

/-- In a component list with pairwise distinct categories, find? by category
returns exactly the member carrying that category. -/
lemma find?_category_unique (l : List Component)
    (hpw : l.Pairwise fun a b => a.category ≠ b.category) :
    ∀ c ∈ l, l.find? (fun x => x.category == c.category) = some c := by
  induction l with
  | nil => intro c hc; simp at hc
  | cons a t ih =>
    intro c hc
    rcases List.mem_cons.mp hc with rfl | hct
    · simp [List.find?]
    · have hne : a.category ≠ c.category := (List.pairwise_cons.mp hpw).1 c hct
      rw [List.find?]
      rw [show (a.category == c.category) = false from beq_eq_false_iff_ne.mpr hne]
      exact ih (List.pairwise_cons.mp hpw).2 c hct

/-- C9 amended: the assemblers do not enforce at most one component per
category (see the counterexample); get_component returns the first
component of the requested category, and whenever a deal does satisfy the
distinct-categories invariant, get_component identifies the unique
component of each present category. -/
theorem c9_theorem :
    (∀ (d : ComboDeal) (cat : String) (c : Component),
      d.get_component cat = some c → c ∈ d.components ∧ c.category = cat) ∧
    (∀ d : ComboDeal, (d.components.Pairwise fun a b => a.category ≠ b.category) →
      ∀ c ∈ d.components, d.get_component c.category = some c) := by
  constructor
  · intro d cat c h
    refine ⟨List.mem_of_find?_eq_some h, ?_⟩
    have := List.find?_some h
    simpa using this
  · intro d hpw c hc
    exact find?_category_unique d.components hpw c hc

/-- C9 witness: on a concrete deal with distinct categories, get_component
identifies each component. -/
theorem c9_witness :
    ({ retailer := "Newegg", combo_type := "CPU+RAM",
       components := [{ name := "cpu0", category := "cpu" },
                      { name := "ram0", category := "ram" }] } : ComboDeal).get_component
      "ram" = some { name := "ram0", category := "ram" } :=
  c9_theorem.2 _ (by simp [List.pairwise_cons]) { name := "ram0", category := "ram" } (by simp)

/-- C10: every RAMDeal the standalone RAM parser constructs is DDR5 with
positive capacity and positive price; when the name carries no DDR
indication at all, or the extracted capacity is missing or zero, or the
price is non-positive, the parser returns none instead of a deal. -/
theorem c10_theorem :
    (∀ (name : String) (price : ℚ) (url retailer : String) (d : RAMDeal),
      RamScrape.parse_ram_deal name price url retailer = some d →
      d.ddr_version = 5 ∧ 0 < d.capacity_gb ∧ 0 < d.price) ∧
    (∀ (name : String) (price : ℚ) (url retailer : String),
      (Newegg.parse_ram_specs name).ddr = none →
      containsSeq "ddr5".data (lowerStr name) = false →
      RamScrape.parse_ram_deal name price url retailer = none) ∧
    (∀ (name : String) (price : ℚ) (url retailer : String),
      (Newegg.parse_ram_specs name).capacity_gb.getD 0 = 0 →
      RamScrape.parse_ram_deal name price url retailer = none) ∧
    (∀ (name : String) (price : ℚ) (url retailer : String),
      price ≤ 0 → RamScrape.parse_ram_deal name price url retailer = none) := by
  refine ⟨?_, ?_, ?_, ?_⟩
  · intro name price url retailer d h
    simp only [RamScrape.parse_ram_deal] at h
    repeat' split at h
    all_goals simp only [Option.some.injEq, reduceCtorEq] at h
    all_goals subst h
    all_goals simp_all
    all_goals constructor
    all_goals first | omega | linarith | tauto | (split_ifs at * <;> simp_all)
  · intro name price url retailer h1 h2
    simp [RamScrape.parse_ram_deal, h1, h2]
  · intro name price url retailer h
    simp only [RamScrape.parse_ram_deal, h]
    repeat' split
    all_goals simp_all
  · intro name price url retailer h
    simp only [RamScrape.parse_ram_deal]
    repeat' split
    all_goals simp_all

/-- C10 witness: the invariant applied to a concrete accepted listing. -/
theorem c10_witness :
    ∃ d : RAMDeal, RamScrape.parse_ram_deal "ddr5 32gb memory" 100 "u" "Newegg" = some d ∧
      d.ddr_version = 5 ∧ 0 < d.capacity_gb ∧ 0 < d.price := by
  refine ⟨_, rfl, c10_theorem.1 "ddr5 32gb memory" 100 "u" "Newegg" _ rfl⟩

/-- The lenient batch loop succeeds iff no batch dispatch raises. -/
lemma batchLoopLenient_eq_true_iff (dispatch : Nat → Notifications.Dispatch) :
    ∀ (n i : Nat), Notifications.batchLoopLenient dispatch i n = true ↔
      ∀ j, j < n → dispatch (i + j) ≠ Notifications.Dispatch.raised := by
  intro n
  induction n with
  | zero =>
    intro i
    simp [Notifications.batchLoopLenient]
  | succ m ih =>
    intro i
    simp only [Notifications.batchLoopLenient]
    cases hd : dispatch i with
    | raised =>
      constructor
      · intro h
        exact absurd h (by simp)
      · intro hall
        exact absurd hd (by simpa using hall 0 (by omega))
    | status c =>
      rw [ih (i + 1)]
      constructor
      · intro hall j hj
        cases j with
        | zero =>
          rw [Nat.add_zero, hd]
          simp
        | succ k =>
          rw [show i + (k + 1) = i + 1 + k by omega]
          exact hall k (by omega)
      · intro hall j hj
        rw [show i + 1 + j = i + (j + 1) by omega]
        exact hall (j + 1) (by omega)

/-- The strict batch loop succeeds iff every batch dispatch returns 204. -/
lemma batchLoopStrict_eq_true_iff (dispatch : Nat → Notifications.Dispatch) :
    ∀ (n i : Nat), Notifications.batchLoopStrict dispatch i n = true ↔
      ∀ j, j < n → dispatch (i + j) = Notifications.Dispatch.status 204 := by
  intro n
  induction n with
  | zero =>
    intro i
    simp [Notifications.batchLoopStrict]
  | succ m ih =>
    intro i
    simp only [Notifications.batchLoopStrict]
    by_cases hd : dispatch i = Notifications.Dispatch.status 204
    · rw [if_pos hd, ih (i + 1)]
      constructor
      · intro hall j hj
        cases j with
        | zero =>
          rw [Nat.add_zero, hd]
        | succ k =>
          rw [show i + (k + 1) = i + 1 + k by omega]
          exact hall k (by omega)
      · intro hall j hj
        rw [show i + 1 + j = i + (j + 1) by omega]
        exact hall (j + 1) (by omega)
    · rw [if_neg hd]
      constructor
      · intro h
        exact absurd h (by simp)
      · intro hall
        exact absurd (by simpa using hall 0 (by omega)) hd

/-- Membership in the saved seen-set built by the append-if-absent fold. -/
lemma mem_foldl_addNew (l : List String) :
    ∀ (init : List String) (u : String),
      u ∈ l.foldl (fun s x => if s.contains x then s else s ++ [x]) init ↔
        u ∈ init ∨ u ∈ l := by
  induction l with
  | nil =>
    intro init u
    simp
  | cons x t ih =>
    intro init u
    rw [List.foldl_cons, ih]
    by_cases hx : init.contains x
    · rw [if_pos hx]
      constructor
      · intro h
        rcases h with h | h
        · exact Or.inl h
        · exact Or.inr (List.mem_cons_of_mem x h)
      · intro h
        rcases h with h | h
        · exact Or.inl h
        · rcases List.mem_cons.mp h with rfl | h
          · exact Or.inl (by simpa using hx)
          · exact Or.inr h
    · rw [if_neg hx]
      constructor
      · intro h
        rcases h with h | h
        · rcases List.mem_append.mp h with h | h
          · exact Or.inl h
          · exact Or.inr (List.mem_cons.mpr (Or.inl (by simpa using h)))
        · exact Or.inr (List.mem_cons_of_mem x h)
      · intro h
        rcases h with h | h
        · exact Or.inl (List.mem_append.mpr (Or.inl h))
        · rcases List.mem_cons.mp h with rfl | h
          · exact Or.inl (List.mem_append.mpr (Or.inr (by simp)))
          · exact Or.inr h

/-- C5 counterexample: with one new deal and a webhook dispatch that
completes with HTTP 500 (a failure by the code's own 204-success criterion,
as batchLoopStrict shows), send_discord_notifications still returns 1 and
saves the deal into the seen-set, so the deal is never retried. -/
theorem c5_counterexample :
    Notifications.send_discord_notifications
        [{ retailer := "Newegg", combo_type := "MB+RAM",
           url := "https://www.newegg.com/combo/1" }] "hook" []
        (fun _ => Notifications.Dispatch.status 500) =
      (1, ["https://www.newegg.com/combo/1"], true) ∧
    Notifications.batchLoopStrict (fun _ => Notifications.Dispatch.status 500) 0 1 = false := by
  refine ⟨by decide, by decide⟩

/-- C5 amended: in send_discord_notifications only a dispatch that raises
aborts the run with 0 and an unmodified seen-set; if no batch raises (even
when some return a non-204 status) the new identities are added and the
seen-set is saved.  In send_discord_expired_notifications any dispatch that
is not HTTP 204 aborts with 0 and an unmodified seen-set, and only when
every batch returns 204 are the expired identities removed and the set
saved. -/
theorem c5_theorem :
    (∀ (deals : List ComboDeal) (webhook_url : String) (store : List String)
        (dispatch : Nat → Notifications.Dispatch),
      webhook_url ≠ "" →
      (∃ j, j < Notifications.numBatches (Notifications.new_deals_of deals store).length ∧
        dispatch j = Notifications.Dispatch.raised) →
      Notifications.send_discord_notifications deals webhook_url store dispatch =
        (0, store, false)) ∧
    (∀ (deals : List ComboDeal) (webhook_url : String) (store : List String)
        (dispatch : Nat → Notifications.Dispatch),
      webhook_url ≠ "" →
      Notifications.new_deals_of deals store ≠ [] →
      (∀ j, j < Notifications.numBatches (Notifications.new_deals_of deals store).length →
        dispatch j ≠ Notifications.Dispatch.raised) →
      (Notifications.send_discord_notifications deals webhook_url store dispatch).1 =
          (Notifications.new_deals_of deals store).length ∧
        (Notifications.send_discord_notifications deals webhook_url store dispatch).2.2 = true ∧
        (∀ u, u ∈ (Notifications.send_discord_notifications deals webhook_url store dispatch).2.1 ↔
          u ∈ Notifications.load_seen_urls store ∨
            u ∈ (Notifications.new_deals_of deals store).map
              fun d => Notifications.normalize_url d.url)) ∧
    (∀ (oos_deals : List ComboDeal) (disappeared_urls : List String) (webhook_url : String)
        (store : List String) (dispatch : Nat → Notifications.Dispatch),
      webhook_url ≠ "" →
      (∃ j, j < Notifications.numBatches (oos_deals.length + disappeared_urls.length) ∧
        dispatch j ≠ Notifications.Dispatch.status 204) →
      Notifications.send_discord_expired_notifications oos_deals disappeared_urls webhook_url
          store dispatch =
        (0, store, false)) ∧
    (∀ (oos_deals : List ComboDeal) (disappeared_urls : List String) (webhook_url : String)
        (store : List String) (dispatch : Nat → Notifications.Dispatch),
      webhook_url ≠ "" →
      oos_deals.length + disappeared_urls.length ≠ 0 →
      (∀ j, j < Notifications.numBatches (oos_deals.length + disappeared_urls.length) →
        dispatch j = Notifications.Dispatch.status 204) →
      (Notifications.send_discord_expired_notifications oos_deals disappeared_urls webhook_url
          store dispatch).2.2 = true ∧
        (∀ u, u ∈ (Notifications.send_discord_expired_notifications oos_deals disappeared_urls
            webhook_url store dispatch).2.1 ↔
          u ∈ Notifications.load_seen_urls store ∧
            u ∉ oos_deals.map (fun d => d.url) ∧ u ∉ disappeared_urls)) := by
  refine ⟨?_, ?_, ?_, ?_⟩
  · intro deals webhook_url store dispatch hw ⟨j, hj, hdj⟩
    have hloop : Notifications.batchLoopLenient dispatch 0
        (Notifications.numBatches (Notifications.new_deals_of deals store).length) = false := by
      rw [Bool.eq_false_iff]
      intro htrue
      exact ((batchLoopLenient_eq_true_iff dispatch _ 0).mp htrue) j hj (by simpa using hdj)
    simp only [Notifications.send_discord_notifications, if_neg hw]
    by_cases hne : Notifications.new_deals_of deals store = []
    · rw [if_pos hne]
    · rw [if_neg hne, hloop]
      simp
  · intro deals webhook_url store dispatch hw hne hall
    have hloop : Notifications.batchLoopLenient dispatch 0
        (Notifications.numBatches (Notifications.new_deals_of deals store).length) = true := by
      rw [batchLoopLenient_eq_true_iff]
      intro j hj
      simpa using hall j hj
    simp only [Notifications.send_discord_notifications, if_neg hw, if_neg hne, hloop, if_true]
    refine ⟨by simp, by simp, ?_⟩
    intro u
    rw [mem_foldl_addNew]
  · intro oos_deals disappeared_urls webhook_url store dispatch hw ⟨j, hj, hdj⟩
    have hloop : Notifications.batchLoopStrict dispatch 0
        (Notifications.numBatches (oos_deals.length + disappeared_urls.length)) = false := by
      rw [Bool.eq_false_iff]
      intro htrue
      exact hdj (by simpa using (batchLoopStrict_eq_true_iff dispatch _ 0).mp htrue j hj)
    simp only [Notifications.send_discord_expired_notifications, if_neg hw]
    by_cases hz : oos_deals.length + disappeared_urls.length = 0
    · rw [if_pos hz]
    · rw [if_neg hz, hloop]
      simp
  · intro oos_deals disappeared_urls webhook_url store dispatch hw hz hall
    have hloop : Notifications.batchLoopStrict dispatch 0
        (Notifications.numBatches (oos_deals.length + disappeared_urls.length)) = true := by
      rw [batchLoopStrict_eq_true_iff]
      intro j hj
      simpa using hall j hj
    simp only [Notifications.send_discord_expired_notifications, if_neg hw, if_neg hz, hloop,
      if_true]
    refine ⟨by simp, ?_⟩
    intro u
    constructor
    · intro h
      obtain ⟨h1, h2⟩ := List.mem_filter.mp h
      obtain ⟨h3, h4⟩ := List.mem_filter.mp h1
      refine ⟨h3, ?_, ?_⟩
      · simpa using h4
      · simpa using h2
    · rintro ⟨h1, h2, h3⟩
      refine List.mem_filter.mpr ⟨List.mem_filter.mpr ⟨h1, ?_⟩, ?_⟩
      · simpa using h2
      · simpa using h3

/-- C5 witness: the amended theorem applied to a concrete run where the
only dispatch raises (nothing saved) and to a concrete expired run where
the only dispatch returns 204 (identities removed and saved). -/
theorem c5_witness :
    Notifications.send_discord_notifications
        [{ retailer := "Newegg", combo_type := "MB+RAM",
           url := "https://www.newegg.com/combo/1" }] "hook" []
        (fun _ => Notifications.Dispatch.raised) = (0, [], false) ∧
    (Notifications.send_discord_expired_notifications []
        ["https://www.newegg.com/combo/1"] "hook" ["https://www.newegg.com/combo/1"]
        (fun _ => Notifications.Dispatch.status 204)).2.2 = true := by
  constructor
  · exact c5_theorem.1 _ _ _ _ (by decide) ⟨0, by decide, rfl⟩
  · exact (c5_theorem.2.2.2 _ _ _ _ _ (by decide) (by decide) (fun j hj => rfl)).1
